import Mathlib

/-!
Verification of the domain-decomposition interface-coupling engine in
`src/examples/ddoper.hpp`.

Modelling conventions of this shallow embedding:
* `double` arithmetic is modelled by `ℚ` (the properties checked here are
  about comparison and bookkeeping logic, not rounding);
* an mfem `Vector` is modelled as a coordinate function `ℕ → ℚ` together
  with explicit sizes; a bounds-checked write is modelled by `Option`;
* external collaborators excluded by the spec (assembled Hypre matrices,
  the STRUMPACK/GMRES inverses, the finite-element prolongation
  `ParGridFunction::SetFromTrueDofs`) enter as abstract function
  parameters; everything that is code of `ddoper.hpp` is translated
  structurally.
-/

/-- Ambient vectors: coordinate functions on `ℕ`.  An operator of height `h`
only ever reads/writes coordinates below its size. -/
abbrev Vec := ℕ → ℚ

/-- The zero vector, `y = 0.0` in mfem. -/
def vzero : Vec := fun _ => 0

/-- The subvector of `x` starting at offset `off` (mfem `GetBlockView`). -/
def subvec (off : ℕ) (x : Vec) : Vec := fun i => x (off + i)

/-- mfem `IdentityOperator::Mult`. -/
def identityOperatorMult (x : Vec) : Vec := x

/-- mfem `SumOperator::Mult`: `y = cA * A x + cB * B x`. -/
def sumOperatorMult (A B : Vec → Vec) (cA cB : ℚ) (x : Vec) : Vec :=
  fun i => cA * A x i + cB * B x i

/-- mfem `ProductOperator::Mult`: `y = A (B x)`. -/
def productOperatorMult (A B : Vec → Vec) (x : Vec) : Vec := A (B x)

/-- mfem `TripleProductOperator::Mult`: `y = A (B (C x))`. -/
def tripleProductOperatorMult (A B C : Vec → Vec) (x : Vec) : Vec := A (B (C x))

/-- mfem `ScaledOperator::Mult`: `y = c * A x`. -/
def scaledOperatorMult (A : Vec → Vec) (c : ℚ) (x : Vec) : Vec :=
  fun i => c * A x i

/-- One block set by `BlockOperator::SetBlock(row, col, op, coef)`: the
forward action `op` and the transposed action `opT` (used when the block
operator is wrapped in a `TransposeOperator`). -/
structure BlockEntry where
  row : ℕ
  col : ℕ
  coef : ℚ
  op : Vec → Vec
  opT : Vec → Vec

/-- Placeholder transpose action for blocks whose transpose is never taken
in the compositions of `ddoper.hpp`. -/
def noAction : Vec → Vec := fun _ => vzero

instance : Inhabited BlockEntry := ⟨⟨0, 0, 0, noAction, noAction⟩⟩

/-- Index of the block containing flat index `i`, for a cumulative offset
list `offsets = [0, o1, o2, ...]` (mfem `Array<int>::PartialSum` output). -/
def rowOf (offsets : List ℕ) (i : ℕ) : ℕ :=
  (offsets.filter (fun o => decide (o ≤ i))).length - 1

/-- mfem `BlockOperator::Mult` over cumulative row/column offsets: the
entry of `y` at flat index `i`, living in row block `r`, is the sum of
`coef * op (x restricted to column block) ` over the blocks set in row `r`;
blocks never set contribute zero. -/
def blockOperatorMult (ro co : List ℕ) (blocks : List BlockEntry) (x : Vec) : Vec :=
  fun i =>
    let r := rowOf ro i
    ((blocks.filter (fun b => b.row == r)).map
      (fun b => b.coef * b.op (subvec (co.getD b.col 0) x) (i - ro.getD r 0))).sum

/-- mfem `BlockOperator::MultTranspose`: same sum with rows and columns
exchanged and each block acting by its transpose. -/
def blockOperatorMultTranspose (ro co : List ℕ) (blocks : List BlockEntry) (x : Vec) : Vec :=
  fun i =>
    let c := rowOf co i
    ((blocks.filter (fun b => b.col == c)).map
      (fun b => b.coef * b.opT (subvec (ro.getD b.row 0) x) (i - co.getD c 0))).sum

/-! ## Geometric face matching (`FacesCoincideGeometrically`, lines 30-66) -/

/-- A vertex coordinate triple (the code always compares 3 components). -/
abbrev Pt := ℚ × ℚ × ℚ

/-- The absolute tolerance `1.0e-12` of the vertex comparisons. -/
def vertexTol : ℚ := 1 / 1000000000000

/-- The inner test of `FacesCoincideGeometrically`: `verticesEqual` starts
`true` and is cleared when any of the 3 components differs by more than
the tolerance, hence it holds iff all components are within tolerance. -/
def verticesEqualB (v w : Pt) : Bool :=
  decide (|v.1 - w.1| ≤ vertexTol) && decide (|v.2.1 - w.2.1| ≤ vertexTol)
    && decide (|v.2.2 - w.2.2| ≤ vertexTol)

/-- `FacesCoincideGeometrically` on the vertex coordinate lists of the two
faces: `false` when the vertex counts differ, otherwise every vertex of the
volume-mesh face must be within tolerance of some vertex of the
surface-mesh element (the loop returns `false` at the first vertex of
`faceVert` with no partner; the bound of the inner loop equals
`elemVert.length` because the lengths agree at that point). -/
def FacesCoincideGeometrically (faceVert elemVert : List Pt) : Bool :=
  if faceVert.length = elemVert.length then
    faceVert.all (fun vi => elemVert.any (fun vj => verticesEqualB vi vj))
  else false

/-- Modelled from the spec: "the two vertex sets coincide geometrically"
(§4.1) read as set equality within tolerance, i.e. every vertex of either
face has a partner in the other.  This is the comparison point for the
claim that the code decides set coincidence. -/
def specVertexSetsCoincide (faceVert elemVert : List Pt) : Prop :=
  (∀ v ∈ faceVert, ∃ w ∈ elemVert, verticesEqualB v w = true) ∧
  (∀ w ∈ elemVert, ∃ v ∈ faceVert, verticesEqualB v w = true)

instance (f e : List Pt) : Decidable (specVertexSetsCoincide f e) := by
  unfold specVertexSetsCoincide; infer_instance

/-- The origin vertex. -/
def oPt : Pt := (0, 0, 0)

/-- A vertex displaced from the origin by `1e-13`, within tolerance. -/
def nearPt : Pt := (1 / 10000000000000, 0, 0)

/-- A vertex far from the origin. -/
def farPt : Pt := (5, 5, 5)

/-- Concrete volume-mesh face: two vertices within `1e-13` of each other. -/
def cexFace1 : List Pt := [oPt, nearPt]

/-- Concrete surface-mesh element: shares only the origin with `cexFace1`. -/
def cexFace2 : List Pt := [oPt, farPt]

/-! ## Face search in `SetInterfaceToSurfaceDOFMap` (lines 177-188) -/

/-- The face-search loop: `sdMeshFace = -1; for j: if
FacesCoincideGeometrically(sdMesh, elFaces[j], ifMesh, i) sdMeshFace =
elFaces[j];` followed by `MFEM_VERIFY(sdMeshFace >= 0)`.  Each face index
is looked up through its vertex coordinates `sdFaceVerts`. -/
def findSdMeshFace (elFaces : List ℕ) (sdFaceVerts : ℕ → List Pt)
    (ifElemVerts : List Pt) : ℤ :=
  elFaces.foldl
    (fun acc f =>
      if FacesCoincideGeometrically (sdFaceVerts f) ifElemVerts then (f : ℤ) else acc)
    (-1)

/-- The `MFEM_VERIFY(sdMeshFace >= 0, "")` abort condition after the loop. -/
def findSdMeshFaceAborts (elFaces : List ℕ) (sdFaceVerts : ℕ → List Pt)
    (ifElemVerts : List Pt) : Prop :=
  findSdMeshFace elFaces sdFaceVerts ifElemVerts < 0

instance (a : List ℕ) (b : ℕ → List Pt) (c : List Pt) :
    Decidable (findSdMeshFaceAborts a b c) := by
  unfold findSdMeshFaceAborts; infer_instance

/-! ## The guarded dofmap writes of `SetInterfaceToSurfaceDOFMap`
(lines 226-235, 303-312, 325-334) -/

/-- `dofmap.assign(ifSize, -1)`: every entry starts at the sentinel. -/
def initialDofmap : ℕ → ℤ := fun _ => -1

/-- One guarded write: `MFEM_VERIFY(dofmap[i] == sdtdof || dofmap[i] == -1,
"")` then `dofmap[i] = sdtdof`; a conflicting previous value aborts
(`none`). -/
def dofmapWrite (dofmap : ℕ → ℤ) (idx : ℕ) (sdtdof : ℤ) : Option (ℕ → ℤ) :=
  if dofmap idx = sdtdof ∨ dofmap idx = -1 then
    some (Function.update dofmap idx sdtdof)
  else none

/-- The whole run of the algorithm as the sequence of guarded writes it
performs, in program order (vertex, then edge, then face writes of every
processed interface face all go through the same guarded assignment). -/
def dofmapRun (dofmap : ℕ → ℤ) : List (ℕ × ℤ) → Option (ℕ → ℤ)
  | [] => some dofmap
  | (idx, t) :: ws =>
    match dofmapWrite dofmap idx t with
    | none => none
    | some dm => dofmapRun dm ws

/-! ## `SetInjectionOperator` (lines 352-382) -/

/-- The write loop of `SetInjectionOperator::Mult`: `i = 0; for it in id:
y[*it] = x[i]; ++i` starting from `y = 0.0` (`ids` is the iteration order
of the `std::set<int>`). -/
def setInjectionMultAux (ids : List ℕ) (x : ℕ → ℚ) (i : ℕ) (y : Vec) : Vec :=
  match ids with
  | [] => y
  | a :: rest => setInjectionMultAux rest x (i + 1) (Function.update y a (x i))

/-- `SetInjectionOperator::Mult`: scatter the compact vector `x` to the
ambient positions listed in `ids`, zero elsewhere. -/
def setInjectionMult (ids : List ℕ) (x : ℕ → ℚ) : Vec :=
  setInjectionMultAux ids x 0 vzero

/-- `SetInjectionOperator::MultTranspose`: `y[i] = x[*it]` gathers the
ambient values back in set order. -/
def setInjectionMultTranspose (ids : List ℕ) (x : Vec) : ℕ → ℚ :=
  fun i => x (ids.getD i 0)

/-- The data of a constructed `SetInjectionOperator`. -/
structure SetInjectionOperator where
  height : ℕ
  ids : List ℕ

/-- The `SetInjectionOperator` constructor: `Operator(height, a->size())`
followed by `MFEM_VERIFY(height >= width, ...)`. -/
def mkSetInjectionOperator (height : ℕ) (ids : List ℕ) :
    Option SetInjectionOperator :=
  if ids.length ≤ height then some ⟨height, ids⟩ else none

/-! ## `InjectionOperator` (lines 384-418) -/

/-- The data of a constructed `InjectionOperator`: `width =
interfaceSpace->GetTrueVSize()`, `fullWidth = interfaceSpace->GetVSize()`,
and the dofmap pointer `id` (entries may be the sentinel `-1`). -/
structure InjectionOperator where
  height : ℕ
  trueVSize : ℕ
  fullWidth : ℕ
  id : List ℤ

/-- The `InjectionOperator` constructor: `Operator(height,
interfaceSpace->GetTrueVSize())` followed by `MFEM_VERIFY(height >= width,
...)`. -/
def mkInjectionOperator (height trueVSize fullWidth : ℕ) (id : List ℤ) :
    Option InjectionOperator :=
  if trueVSize ≤ height then some ⟨height, trueVSize, fullWidth, id⟩ else none

/-- A bounds-checked write `y[j] = v` into a `Vector` of size `size`:
out-of-range indices (in particular the sentinel `-1`) are invalid. -/
def vecWrite (size : ℕ) (y : ℕ → ℚ) (j : ℤ) (v : ℚ) : Option (ℕ → ℚ) :=
  if 0 ≤ j ∧ j < (size : ℤ) then some (Function.update y j.toNat v) else none

/-- The write loop of `InjectionOperator::Mult`: `for (i=0; i<fullWidth;
++i) y[id[i]] = gf[i];` — note the loop indexes `y` by `id[i]`
unconditionally, with no sentinel check. -/
def injectionMultAux (height : ℕ) (id : List ℤ) (gf : ℕ → ℚ) (i : ℕ)
    (y : ℕ → ℚ) : Option (ℕ → ℚ) :=
  match id with
  | [] => some y
  | j :: rest =>
    match vecWrite height y j (gf i) with
    | none => none
    | some y2 => injectionMultAux height rest gf (i + 1) y2

/-- `InjectionOperator::Mult`: `gf.SetFromTrueDofs(x)` (external, the
expanded full-DOF values are the argument `gf`), then `y = 0.0` and the
scatter loop over the dofmap `id`. -/
def InjectionOperatorMult (height : ℕ) (id : List ℤ) (gf : ℕ → ℚ) :
    Option (ℕ → ℚ) :=
  injectionMultAux height id gf 0 (fun _ => 0)

/-! ## Helper lemmas -/

/-- The default value of `getLastD` is irrelevant on a nonempty list. -/
lemma getLastD_of_ne_nil {L : List ℕ} (h : L ≠ []) (d1 d2 : ℕ) :
    L.getLastD d1 = L.getLastD d2 := by
  rw [List.getLastD_eq_getLast?, List.getLastD_eq_getLast?]
  obtain ⟨a, ha⟩ := Option.isSome_iff_exists.mp (List.getLast?_isSome.mpr h)
  rw [ha]
  rfl

/-- The overwrite-fold of the face-search loop keeps the accumulator when
no element matches and otherwise ends at the last matching element. -/
lemma foldl_overwrite_eq (p : ℕ → Bool) (l : List ℕ) (acc : ℤ) :
    l.foldl (fun a f => if p f then (f : ℤ) else a) acc
      = if l.filter p = [] then acc else ((l.filter p).getLastD 0 : ℤ) := by
  induction l generalizing acc with
  | nil => simp
  | cons b rest ih =>
    simp only [List.foldl_cons, List.filter_cons]
    by_cases h : p b
    · simp only [h, if_true]
      rw [ih]
      by_cases hr : rest.filter p = []
      · simp [hr]
      · simp only [hr, if_neg, ite_false]
        have hcons : b :: rest.filter p ≠ [] := by simp
        rw [if_neg hcons, List.getLastD_cons, getLastD_of_ne_nil hr b 0]
    · simp only [h, if_false]
      exact ih acc

/-- A successful guarded write tells what the guard allowed and what the
new table is. -/
lemma dofmapWrite_some {dm : ℕ → ℤ} {j : ℕ} {s : ℤ} {dmm : ℕ → ℤ}
    (h : dofmapWrite dm j s = some dmm) :
    (dm j = s ∨ dm j = -1) ∧ dmm = Function.update dm j s := by
  unfold dofmapWrite at h
  split at h
  · exact ⟨by assumption, (Option.some.inj h).symm⟩
  · cases h

/-- Once an entry holds a non-sentinel value, a successful run never
changes it. -/
lemma dofmapRun_stable (ws : List (ℕ × ℤ)) (dm dm2 : ℕ → ℤ) (i : ℕ)
    (hrun : dofmapRun dm ws = some dm2) (hi : dm i ≠ -1) : dm2 i = dm i := by
  induction ws generalizing dm with
  | nil =>
    simp only [dofmapRun] at hrun
    rw [← Option.some.inj hrun]
  | cons w rest ih =>
    obtain ⟨j, s⟩ := w
    simp only [dofmapRun] at hrun
    cases hw : dofmapWrite dm j s with
    | none => rw [hw] at hrun; cases hrun
    | some dmm =>
      rw [hw] at hrun
      obtain ⟨hguard, hupd⟩ := dofmapWrite_some hw
      have hval : dmm i = dm i := by
        by_cases hij : i = j
        · subst hij
          rcases hguard with hg | hg
          · rw [hupd, Function.update_same, hg]
          · exact absurd hg hi
        · rw [hupd, Function.update_noteq hij]
      have := ih dmm hrun (by rw [hval]; exact hi)
      rw [this, hval]

/-- In a successful run whose targets are all non-negative, the final
table holds, at every written index, the value every write to that index
carried. -/
lemma dofmapRun_mem_final (ws : List (ℕ × ℤ)) (dm dm2 : ℕ → ℤ) (i : ℕ) (t : ℤ)
    (hrun : dofmapRun dm ws = some dm2) (hmem : (i, t) ∈ ws)
    (hpos : ∀ q ∈ ws, 0 ≤ q.2) : dm2 i = t := by
  induction ws generalizing dm with
  | nil => cases hmem
  | cons w rest ih =>
    obtain ⟨j, s⟩ := w
    simp only [dofmapRun] at hrun
    cases hw : dofmapWrite dm j s with
    | none => rw [hw] at hrun; cases hrun
    | some dmm =>
      rw [hw] at hrun
      obtain ⟨_, hupd⟩ := dofmapWrite_some hw
      rcases List.mem_cons.mp hmem with heq | hmem2
      · obtain ⟨hi, ht⟩ := Prod.mk.injEq .. ▸ heq
        subst hi; subst ht
        have hvv : dmm i = t := by rw [hupd, Function.update_same]
        have hne : dmm i ≠ -1 := by
          rw [hvv]
          have := hpos (i, t) (List.mem_cons_self _ _)
          omega
        rw [dofmapRun_stable rest dmm dm2 i hrun hne, hvv]
      · exact ih dmm hrun hmem2 (fun q hq => hpos q (List.mem_cons_of_mem _ hq))

/-- Positions outside the index set are untouched by the scatter loop of
`SetInjectionOperator::Mult`. -/
lemma setInjectionMultAux_not_mem (ids : List ℕ) (x : ℕ → ℚ) (i : ℕ) (y : Vec)
    (a : ℕ) (ha : a ∉ ids) : setInjectionMultAux ids x i y a = y a := by
  induction ids generalizing i y with
  | nil => rfl
  | cons b rest ih =>
    have hab : a ≠ b := fun h => ha (h ▸ List.mem_cons_self _ _)
    have har : a ∉ rest := fun h => ha (List.mem_cons_of_mem _ h)
    simp only [setInjectionMultAux]
    rw [ih _ _ har, Function.update_noteq hab]

/-- With pairwise-distinct indices the scatter loop puts `x (i + k)` at
ambient position `ids[k]`. -/
lemma setInjectionMultAux_getD (ids : List ℕ) (x : ℕ → ℚ) (i : ℕ) (y : Vec)
    (hnd : ids.Nodup) (k : ℕ) (hk : k < ids.length) :
    setInjectionMultAux ids x i y (ids.getD k 0) = x (i + k) := by
  induction ids generalizing i y k with
  | nil => cases hk
  | cons b rest ih =>
    obtain ⟨hb, hrest⟩ := List.nodup_cons.mp hnd
    cases k with
    | zero =>
      simp only [List.getD_cons_zero, setInjectionMultAux]
      rw [setInjectionMultAux_not_mem rest x (i + 1) _ b hb,
        Function.update_same, Nat.add_zero]
    | succ k2 =>
      simp only [List.getD_cons_succ, setInjectionMultAux]
      rw [ih _ _ hrest k2 (by simpa using hk)]
      congr 1
      omega

/-- The origin matches itself within tolerance. -/
lemma vEq_origin : verticesEqualB oPt oPt = true := by
  simp only [verticesEqualB, oPt, vertexTol, Bool.and_eq_true, decide_eq_true_eq]
  norm_num

/-- A vertex displaced by `1e-13` still matches the origin (within the
`1e-12` tolerance). -/
lemma vEq_near : verticesEqualB nearPt oPt = true := by
  simp only [verticesEqualB, nearPt, oPt, vertexTol, Bool.and_eq_true,
    decide_eq_true_eq, abs_le]
  norm_num

/-- The origin does not match `(5,5,5)`. -/
lemma vNe_far1 : ¬ verticesEqualB oPt farPt = true := by
  simp only [verticesEqualB, oPt, farPt, vertexTol, Bool.and_eq_true,
    decide_eq_true_eq, abs_le]
  norm_num

/-- The displaced vertex does not match `(5,5,5)` either. -/
lemma vNe_far2 : ¬ verticesEqualB nearPt farPt = true := by
  simp only [verticesEqualB, nearPt, farPt, vertexTol, Bool.and_eq_true,
    decide_eq_true_eq, abs_le]
  norm_num

/-- The two concrete faces are accepted by the matcher. -/
lemma cexFaces_match : FacesCoincideGeometrically cexFace1 cexFace2 = true := by
  simp only [FacesCoincideGeometrically, cexFace1, cexFace2, List.length_cons,
    List.length_nil, if_true, List.all_cons, List.all_nil, List.any_cons,
    List.any_nil, Bool.and_eq_true, Bool.or_eq_true, vEq_origin, vEq_near,
    Bool.and_true, Bool.or_false, Bool.true_or, Bool.or_true]

/-- The vertex sets of the two concrete faces do not coincide. -/
lemma cexFaces_not_setsCoincide : ¬ specVertexSetsCoincide cexFace1 cexFace2 := by
  rintro ⟨-, h2⟩
  obtain ⟨v, hv, hveq⟩ := h2 farPt (by simp [cexFace2])
  have hv2 : v = oPt ∨ v = nearPt := by simpa [cexFace1] using hv
  rcases hv2 with h | h
  · exact vNe_far1 (h ▸ hveq)
  · exact vNe_far2 (h ▸ hveq)

/-- A one-vertex face at the origin matches itself. -/
lemma cexPt_matches : FacesCoincideGeometrically [oPt] [oPt] = true := by
  simp only [FacesCoincideGeometrically, List.length_cons, List.length_nil,
    if_true, List.all_cons, List.all_nil, List.any_cons, List.any_nil,
    Bool.and_eq_true, Bool.or_eq_true, vEq_origin, Bool.and_true,
    Bool.or_false, Bool.true_or]

/-! ## Claim theorems for the leaf components -/

/-- C2: evaluation of `InjectionOperator::Mult` at a dofmap holding the
sentinel `-1`.  The scatter loop writes `y[id[i]]` with no sentinel check,
so the first entry triggers the out-of-bounds write `y[-1] = gf[0]`
(modelled as `none`); with a fully mapped in-range table the same loop
succeeds. -/
theorem C2_injection_sentinel_write :
    InjectionOperatorMult 4 [-1, 2] (fun _ => 1) = none
    ∧ (InjectionOperatorMult 4 [3, 2] (fun _ => 1)).isSome = true := by
  constructor
  · rfl
  · rfl

/-- C4 (counterexample): a subdomain element two of whose faces (indices 3
and 5, both with vertex list `[(0,0,0)]`) coincide geometrically with the
interface face; the search loop does not abort — `MFEM_VERIFY(sdMeshFace
>= 0)` passes — and the last matching face wins, contradicting the claim
that more than one match is fatal. -/
theorem C4_face_match_counterexample :
    (([3, 5].filter
        (fun f => FacesCoincideGeometrically ((fun _ => [oPt]) f) [oPt])).length = 2)
    ∧ findSdMeshFace [3, 5] (fun _ => [oPt]) [oPt] = 5
    ∧ ¬ findSdMeshFaceAborts [3, 5] (fun _ => [oPt]) [oPt] := by
  refine ⟨?_, ?_, ?_⟩
  · simp [cexPt_matches]
  · simp [findSdMeshFace, cexPt_matches]
  · simp [findSdMeshFaceAborts, findSdMeshFace, cexPt_matches]

/-- C4 (amended): the construction aborts exactly when no face of the
subdomain element coincides geometrically with the interface face; when at
least one face matches there is no abort and the result is the last
matching face in iteration order (multiple matches are not detected). -/
theorem C4_face_match_amended (elFaces : List ℕ) (sdFaceVerts : ℕ → List Pt)
    (ifElemVerts : List Pt) :
    (findSdMeshFaceAborts elFaces sdFaceVerts ifElemVerts ↔
      elFaces.filter (fun f => FacesCoincideGeometrically (sdFaceVerts f) ifElemVerts) = [])
    ∧ (elFaces.filter (fun f => FacesCoincideGeometrically (sdFaceVerts f) ifElemVerts) ≠ [] →
        findSdMeshFace elFaces sdFaceVerts ifElemVerts
          = ((elFaces.filter
              (fun f => FacesCoincideGeometrically (sdFaceVerts f) ifElemVerts)).getLastD 0 : ℤ)) := by
  unfold findSdMeshFaceAborts findSdMeshFace
  rw [foldl_overwrite_eq]
  by_cases h :
      elFaces.filter (fun f => FacesCoincideGeometrically (sdFaceVerts f) ifElemVerts) = []
  · refine ⟨by simp [h], fun hc => absurd h hc⟩
  · rw [if_neg h]
    refine ⟨⟨fun hlt => ?_, fun hc => absurd hc h⟩, fun _ => rfl⟩
    exact absurd hlt (by exact not_lt.mpr (Int.natCast_nonneg _))

/-- C5: over any run of the guarded dofmap writes (all targets are true
DOFs, hence non-negative) that completes without aborting, any two writes
to the same entry carried the same target; moreover a write whose entry
holds a conflicting non-sentinel value aborts, and a successful write only
ever sees the sentinel or its own target. -/
theorem C5_dofmap_consistency (ws : List (ℕ × ℤ))
    (hpos : ∀ q ∈ ws, 0 ≤ q.2)
    (hsome : (dofmapRun initialDofmap ws).isSome = true) :
    (∀ p ∈ ws, ∀ q ∈ ws, p.1 = q.1 → p.2 = q.2)
    ∧ (∀ dm idx t, dm idx ≠ -1 → dm idx ≠ t → dofmapWrite dm idx t = none)
    ∧ (∀ dm idx t dm2, dofmapWrite dm idx t = some dm2 → dm idx = -1 ∨ dm idx = t) := by
  obtain ⟨dm2, hdm2⟩ := Option.isSome_iff_exists.mp hsome
  refine ⟨?_, ?_, ?_⟩
  · intro p hp q hq hidx
    have h1 := dofmapRun_mem_final ws initialDofmap dm2 p.1 p.2 hdm2 (by simpa using hp) hpos
    have h2 := dofmapRun_mem_final ws initialDofmap dm2 q.1 q.2 hdm2 (by simpa using hq) hpos
    rw [hidx] at h1
    exact h1.symm.trans h2
  · intro dm idx t h1 h2
    unfold dofmapWrite
    rw [if_neg]
    rintro (h | h)
    · exact h2 h
    · exact h1 h
  · intro dm idx t dm2 h
    rcases (dofmapWrite_some h).1 with h | h
    · exact Or.inr h
    · exact Or.inl h

/-- C5 witness: a run with a repeated consistent write and a write to a
second entry succeeds, and the theorem then yields that overwriting entry
0 (holding 5) with the conflicting target 7 aborts. -/
theorem C5_dofmap_consistency_witness :
    dofmapWrite (Function.update initialDofmap 0 5) 0 7 = none := by
  have h := (C5_dofmap_consistency [(0, 5), (0, 5), (1, 7)] (by decide) (by decide)).2.1
  exact h (Function.update initialDofmap 0 5) 0 7 (by decide) (by decide)

/-- C6 (counterexample): the matcher accepts two faces with equal vertex
counts whose vertex sets do not coincide — both vertices of the first face
sit within tolerance of the single shared vertex `(0,0,0)`, while `(5,5,5)`
of the second face matches nothing — refuting the claim that a `true`
answer means the two vertex sets coincide geometrically. -/
theorem C6_face_matcher_counterexample :
    FacesCoincideGeometrically cexFace1 cexFace2 = true
    ∧ ¬ specVertexSetsCoincide cexFace1 cexFace2 :=
  ⟨cexFaces_match, cexFaces_not_setsCoincide⟩

/-- C6 (amended): `FacesCoincideGeometrically` returns `true` iff the two
vertex counts agree and every vertex of the first (volume-mesh) face is
within the componentwise tolerance `1e-12` of some vertex of the second
(surface-mesh) face; in particular it returns `false` whenever the counts
differ, and it is a total function (never raises). -/
theorem C6_face_matcher_amended (faceVert elemVert : List Pt) :
    FacesCoincideGeometrically faceVert elemVert = true ↔
      (faceVert.length = elemVert.length
        ∧ ∀ v ∈ faceVert, ∃ w ∈ elemVert, verticesEqualB v w = true) := by
  unfold FacesCoincideGeometrically
  by_cases h : faceVert.length = elemVert.length
  · simp only [h, if_true, List.all_eq_true, List.any_eq_true, true_and]
  · simp only [h, if_false, false_and, iff_false, ite_false]
    simp

/-- C7: for a set of pairwise-distinct ambient indices (each below the
ambient dimension), the gather `MultTranspose` inverts the scatter `Mult`
on every compact coordinate, and `Mult` is injective on compact vectors. -/
theorem C7_set_injection_roundtrip (height : ℕ) (ids : List ℕ) (x y : ℕ → ℚ)
    (hnd : ids.Nodup) (_hb : ∀ a ∈ ids, a < height) :
    (∀ k, k < ids.length →
      setInjectionMultTranspose ids (setInjectionMult ids x) k = x k)
    ∧ (setInjectionMult ids x = setInjectionMult ids y →
        ∀ k, k < ids.length → x k = y k) := by
  have hrt : ∀ (z : ℕ → ℚ) k, k < ids.length →
      setInjectionMultTranspose ids (setInjectionMult ids z) k = z k := by
    intro z k hk
    unfold setInjectionMultTranspose setInjectionMult
    rw [setInjectionMultAux_getD ids z 0 vzero hnd k hk]
    rw [Nat.zero_add]
  refine ⟨hrt x, ?_⟩
  intro heq k hk
  have h1 := hrt x k hk
  have h2 := hrt y k hk
  rw [← h1, ← h2]
  unfold setInjectionMultTranspose
  rw [heq]

/-- C7 witness: the round trip through ambient dimension 3 with index set
`{2, 0}` recovers the compact vector `(1, 2)` at coordinate 1. -/
theorem C7_set_injection_roundtrip_witness :
    setInjectionMultTranspose [2, 0]
      (setInjectionMult [2, 0] (fun j => (j : ℚ) + 1)) 1 = 2 := by
  have h := (C7_set_injection_roundtrip 3 [2, 0] (fun j => (j : ℚ) + 1)
    (fun j => (j : ℚ) + 1) (by decide) (by decide)).1 1 (by decide)
  rw [h]
  norm_num

/-- C9: both injection-operator constructors run `MFEM_VERIFY(height >=
width, ...)`: construction succeeds exactly when the ambient dimension is
at least the compact dimension (the index-set size, resp. the interface
true-DOF count), and fails otherwise. -/
theorem C9_construction_height_check :
    (∀ height ids, (mkSetInjectionOperator height ids).isSome = true ↔ ids.length ≤ height)
    ∧ (∀ height trueVSize fullWidth id2,
        (mkInjectionOperator height trueVSize fullWidth id2).isSome = true ↔ trueVSize ≤ height) := by
  constructor
  · intro height ids
    unfold mkSetInjectionOperator
    split
    · simpa using ‹_›
    · rename_i h
      exact iff_of_false (by simp) h
  · intro height trueVSize fullWidth id2
    unfold mkInjectionOperator
    split
    · simpa using ‹_›
    · rename_i h
      exact iff_of_false (by simp) h

/-- C10: the matcher's test is one-directional — with equal vertex counts
it returns `true` exactly when each vertex of the first (volume-mesh) face
lies within tolerance of some vertex of the second — and consequently
there are inputs with equal counts but different vertex sets (both
first-face vertices within tolerance of the shared origin) that it
accepts. -/
theorem C10_one_directional_match (faceVert elemVert : List Pt)
    (h : faceVert.length = elemVert.length) :
    (FacesCoincideGeometrically faceVert elemVert = true ↔
      ∀ v ∈ faceVert, ∃ w ∈ elemVert, verticesEqualB v w = true)
    ∧ (FacesCoincideGeometrically cexFace1 cexFace2 = true
        ∧ cexFace1.length = cexFace2.length
        ∧ ¬ specVertexSetsCoincide cexFace1 cexFace2) := by
  constructor
  · unfold FacesCoincideGeometrically
    simp only [h, if_true, List.all_eq_true, List.any_eq_true]
  · exact ⟨cexFaces_match, rfl, cexFaces_not_setsCoincide⟩

/-- C10 witness: the one-directional characterization applied to the
concrete pair of faces with equal counts. -/
theorem C10_one_directional_match_witness :
    FacesCoincideGeometrically cexFace1 cexFace2 = true := by
  exact (C10_one_directional_match cexFace1 cexFace2 (by decide)).2.1

/-! ## `DDMInterfaceOperator` (lines 421-1266)

The constructor data, per process.  External collaborators are abstract:
the assembled interface matrices (`CreateInterfaceMatrices`), the
subdomain stiffness matrix (`CreateSubdomainMatrices`), the GMRES inverse
`invAsd` and the `InterfaceToSurfaceInjection` operators (whose scatter
loop is modelled separately by `InjectionOperatorMult`) enter as function
parameters.  The penalty coefficients `alpha, beta, gamma` are constructor
state (hard-coded to `1.0` in the source, marked TODO there); they stay
parameters of the model. -/

/-- Per-subdomain data: `owned` is `pmeshSD[m] != NULL`; `tdofsBdry` is
the set computed by `FindBoundaryTrueDOFs` (in increasing `std::set`
order); `sdNDMult` the assembled `sdND[m]`; `invAsdMult` the GMRES
approximate inverse `invAsd[m]`. -/
structure SubdomainData where
  owned : Bool
  fespaceTrueVSize : ℕ
  tdofsBdry : List ℕ
  sdNDMult : Vec → Vec
  invAsdMult : Vec → Vec

/-- Per-interface data: the two adjacent subdomains (`sd0 < sd1` in the
source), the two true-DOF counts (`ifespace`/`iH1fespace`
`GetTrueVSize()`), and the actions of the four assembled interface
matrices (plus the transpose of the mixed gradient, used via
`TransposeOperator`). -/
structure InterfaceData where
  sd0 : ℕ
  sd1 : ℕ
  ifTrueVSize : ℕ
  ih1TrueVSize : ℕ
  ifNDmassMult : Vec → Vec
  ifNDcurlcurlMult : Vec → Vec
  ifNDH1gradMult : Vec → Vec
  ifNDH1gradMultT : Vec → Vec
  ifH1massMult : Vec → Vec

instance : Inhabited InterfaceData :=
  ⟨⟨0, 0, 0, 0, noAction, noAction, noAction, noAction, noAction⟩⟩

/-- The whole constructor input: the local interfaces carry their global
data inline (in the source, `localInterfaces` indexes into the global
interface arrays through `globalInterfaceIndex`; here the two indexings
are identified).  `ifsInjMult`/`ifsInjMultT` are the actions of
`InterfaceToSurfaceInjection[m][i]` and its transpose. -/
structure DDParams where
  numSubdomains : ℕ
  sd : ℕ → SubdomainData
  interfaces : List InterfaceData
  alpha : ℚ
  beta : ℚ
  gamma : ℚ
  ifsInjMult : ℕ → ℕ → Vec → Vec
  ifsInjMultT : ℕ → ℕ → Vec → Vec

/-- Lookup of a local interface's data. -/
def interfaceData (P : DDParams) (k : ℕ) : InterfaceData :=
  P.interfaces.getD k default

/-- `subdomainLocalInterfaces[m]`: the interfaces incident to subdomain
`m`, in increasing interface order (the constructor pushes each interface
to the lists of both of its subdomains while looping over interfaces). -/
def subdomainLocalInterfaces (P : DDParams) (m : ℕ) : List ℕ :=
  (List.range P.interfaces.length).filter
    (fun k => (interfaceData P k).sd0 == m || (interfaceData P k).sd1 == m)

/-- The two true-DOF counts an interface contributes to a subdomain block
(`ifespace[i]->GetTrueVSize() + iH1fespace[i]->GetTrueVSize()`). -/
def ifPairSize (P : DDParams) (k : ℕ) : ℕ :=
  (interfaceData P k).ifTrueVSize + (interfaceData P k).ih1TrueVSize

/-- The size accumulated into `block_trueOffsets[m+1]`: the interface
pair sizes of all incident interfaces (first constructor loop) plus
`tdofsBdry[m].size()` when the subdomain is owned (second loop). -/
def sdBlockSize (P : DDParams) (m : ℕ) : ℕ :=
  ((subdomainLocalInterfaces P m).map (ifPairSize P)).sum
    + (if (P.sd m).owned then (P.sd m).tdofsBdry.length else 0)

/-- `block_trueOffsets` after `PartialSum()`: the prefix sums of the
per-subdomain block sizes, starting at 0. -/
def block_trueOffsets (P : DDParams) : List ℕ :=
  (List.range (P.numSubdomains + 1)).map
    (fun m => (((List.range P.numSubdomains).map (sdBlockSize P)).take m).sum)

/-- The accumulated `size` variable: `height = width = size`. -/
def ddSize (P : DDParams) : ℕ :=
  ((List.range P.numSubdomains).map (sdBlockSize P)).sum

/-- The constructor's final check `MFEM_VERIFY(block_trueOffsets.Last() ==
size, "")`: construction yields the operator dimensions and offsets only
when the accumulated offsets match the accumulated size. -/
def ddConstructorCheck (P : DDParams) : Option (ℕ × List ℕ) :=
  if (block_trueOffsets P).getLastD 0 = ddSize P then
    some (ddSize P, block_trueOffsets P)
  else none

/-- `tdofsBdryInjection[m]`, a `SetInjectionOperator` over
`tdofsBdry[m]`. -/
def tdofsBdryInjectionMult (P : DDParams) (m : ℕ) : Vec → Vec :=
  setInjectionMult (P.sd m).tdofsBdry

/-- `tdofsBdryInjectionTranspose[m]` (a `TransposeOperator`, so its
`Mult` is the set injection's `MultTranspose`). -/
def tdofsBdryInjectionMultT (P : DDParams) (m : ℕ) : Vec → Vec :=
  setInjectionMultTranspose (P.sd m).tdofsBdry

/-! ### `CreateCij` (lines 789-892) -/

/-- The six blocks set by `CreateCij` on the `[u^s, f] x [u^s, f, rho]`
block structure: `(0,0)` mass+curlcurl scaled `(alpha, beta)`; `(0,1)`
mass scaled `-1`; `(0,2)` mixed gradient scaled `-gamma`; `(1,0)`
mass+curlcurl scaled `(-1, -beta/alpha)`; `(1,1)` mass scaled `1/alpha`;
`(1,2)` mixed gradient scaled `gamma/alpha`; row 2 is zeros. -/
def createCijBlocks (P : DDParams) (k : ℕ) : List BlockEntry :=
  [⟨0, 0, 1, sumOperatorMult (interfaceData P k).ifNDmassMult
      (interfaceData P k).ifNDcurlcurlMult P.alpha P.beta, noAction⟩,
   ⟨0, 1, -1, (interfaceData P k).ifNDmassMult, noAction⟩,
   ⟨0, 2, -P.gamma, (interfaceData P k).ifNDH1gradMult, noAction⟩,
   ⟨1, 0, 1, sumOperatorMult (interfaceData P k).ifNDmassMult
      (interfaceData P k).ifNDcurlcurlMult (-1) (-(P.beta / P.alpha)), noAction⟩,
   ⟨1, 1, 1 / P.alpha, (interfaceData P k).ifNDmassMult, noAction⟩,
   ⟨1, 2, P.gamma / P.alpha, (interfaceData P k).ifNDH1gradMult, noAction⟩]

/-- `CreateCij` as a block operator over the row offsets `[0, ifT, 2*ifT]`
and column offsets `[0, ifT, 2*ifT, 2*ifT + ih1T]` (the `PartialSum` of
`rowTrueOffsetsIF`/`colTrueOffsetsIF`). -/
def createCijMult (P : DDParams) (k : ℕ) : Vec → Vec :=
  blockOperatorMult
    [0, (interfaceData P k).ifTrueVSize, 2 * (interfaceData P k).ifTrueVSize]
    [0, (interfaceData P k).ifTrueVSize, 2 * (interfaceData P k).ifTrueVSize,
      2 * (interfaceData P k).ifTrueVSize + (interfaceData P k).ih1TrueVSize]
    (createCijBlocks P k)

/-! ### `CreateInterfaceOperator` (lines 896-1057) -/

/-- The first subdomain of interface `ili` under the given orientation. -/
def ifSd0 (P : DDParams) (ili orientation : ℕ) : ℕ :=
  if orientation = 0 then (interfaceData P ili).sd0 else (interfaceData P ili).sd1

/-- The second subdomain of interface `ili` under the given orientation. -/
def ifSd1 (P : DDParams) (ili orientation : ℕ) : ℕ :=
  if orientation = 0 then (interfaceData P ili).sd1 else (interfaceData P ili).sd0

/-- `sd0if`/`sd1if`: the position of interface `ili` in
`subdomainLocalInterfaces[sd]`. -/
def sdIfPos (P : DDParams) (sd ili : ℕ) : ℕ :=
  List.indexOf ili (subdomainLocalInterfaces P sd)

/-- `sd0os`/`sd1os`: the sum of pair sizes of the interfaces of `sd`
before `ili` in the local list. -/
def sdOsBefore (P : DDParams) (sd ili : ℕ) : ℕ :=
  (((subdomainLocalInterfaces P sd).take (sdIfPos P sd ili)).map (ifPairSize P)).sum

/-- The sum of pair sizes of the interfaces of `sd` from `ili` on
(`sd0osComp`/`sd1osComp` before the final subtraction). -/
def sdOsFrom (P : DDParams) (sd ili : ℕ) : ℕ :=
  (((subdomainLocalInterfaces P sd).drop (sdIfPos P sd ili)).map (ifPairSize P)).sum

/-- The right injection operator of `CreateInterfaceOperator`: block
`(0,0)` is `TransposeOperator(InterfaceToSurfaceInjection[sd1][sd1if])`
composed with `tdofsBdryInjection[sd1]`, block `(1,1)` the identity on the
interface pair.  The row block sizes are `[ifT, ifT + ih1T]`
(`rowTrueOffsetsIFR` before `PartialSum`), so the cumulative row offsets
are `[0, ifT, ifT + (ifT + ih1T)]`, matching the height `2*ifT + ih1T`
of `CreateCij`'s column space. -/
def rightInjectionMult (P : DDParams) (ili orientation : ℕ) : Vec → Vec :=
  blockOperatorMult
    [0, (interfaceData P ili).ifTrueVSize,
      (interfaceData P ili).ifTrueVSize
        + ((interfaceData P ili).ifTrueVSize + (interfaceData P ili).ih1TrueVSize)]
    [0, (P.sd (ifSd1 P ili orientation)).tdofsBdry.length,
      (P.sd (ifSd1 P ili orientation)).tdofsBdry.length
        + ((interfaceData P ili).ifTrueVSize + (interfaceData P ili).ih1TrueVSize)]
    [⟨0, 0, 1,
        productOperatorMult
          (P.ifsInjMultT (ifSd1 P ili orientation) (sdIfPos P (ifSd1 P ili orientation) ili))
          (tdofsBdryInjectionMult P (ifSd1 P ili orientation)), noAction⟩,
     ⟨1, 1, 1, identityOperatorMult, identityOperatorMult⟩]

/-- The left injection operator of `CreateInterfaceOperator`: block
`(0,0)` is `tdofsBdryInjectionTranspose[sd0]` composed with
`InterfaceToSurfaceInjection[sd0][sd0if]`, block `(1,1)` the identity on
the interface ND space. -/
def leftInjectionMult (P : DDParams) (ili orientation : ℕ) : Vec → Vec :=
  blockOperatorMult
    [0, (P.sd (ifSd0 P ili orientation)).tdofsBdry.length,
      (P.sd (ifSd0 P ili orientation)).tdofsBdry.length + (interfaceData P ili).ifTrueVSize]
    [0, (interfaceData P ili).ifTrueVSize, 2 * (interfaceData P ili).ifTrueVSize]
    [⟨0, 0, 1,
        productOperatorMult (tdofsBdryInjectionMultT P (ifSd0 P ili orientation))
          (P.ifsInjMult (ifSd0 P ili orientation) (sdIfPos P (ifSd0 P ili orientation) ili)),
        noAction⟩,
     ⟨1, 1, 1, identityOperatorMult, identityOperatorMult⟩]

/-- The left zero-padding block injection: identity from the surface
block to row 0 and from the interface ND block to row 2, rows 1 and 3
(the other interfaces of `sd0`) zero. -/
def blockInjectionLeftMult (P : DDParams) (ili orientation : ℕ) : Vec → Vec :=
  blockOperatorMult
    [0, (P.sd (ifSd0 P ili orientation)).tdofsBdry.length,
      (P.sd (ifSd0 P ili orientation)).tdofsBdry.length + sdOsBefore P (ifSd0 P ili orientation) ili,
      (P.sd (ifSd0 P ili orientation)).tdofsBdry.length + sdOsBefore P (ifSd0 P ili orientation) ili
        + (interfaceData P ili).ifTrueVSize,
      (P.sd (ifSd0 P ili orientation)).tdofsBdry.length + sdOsBefore P (ifSd0 P ili orientation) ili
        + (interfaceData P ili).ifTrueVSize
        + (sdOsFrom P (ifSd0 P ili orientation) ili - (interfaceData P ili).ifTrueVSize)]
    [0, (P.sd (ifSd0 P ili orientation)).tdofsBdry.length,
      (P.sd (ifSd0 P ili orientation)).tdofsBdry.length + (interfaceData P ili).ifTrueVSize]
    [⟨0, 0, 1, identityOperatorMult, identityOperatorMult⟩,
     ⟨2, 1, 1, identityOperatorMult, identityOperatorMult⟩]

/-- The right zero-padding block injection: identity from the surface
block of `sd1` and from this interface's `(f, rho)` pair, the other
interfaces of `sd1` zero. -/
def blockInjectionRightMult (P : DDParams) (ili orientation : ℕ) : Vec → Vec :=
  blockOperatorMult
    [0, (P.sd (ifSd1 P ili orientation)).tdofsBdry.length,
      (P.sd (ifSd1 P ili orientation)).tdofsBdry.length
        + ((interfaceData P ili).ifTrueVSize + (interfaceData P ili).ih1TrueVSize)]
    [0, (P.sd (ifSd1 P ili orientation)).tdofsBdry.length,
      (P.sd (ifSd1 P ili orientation)).tdofsBdry.length + sdOsBefore P (ifSd1 P ili orientation) ili,
      (P.sd (ifSd1 P ili orientation)).tdofsBdry.length + sdOsBefore P (ifSd1 P ili orientation) ili
        + ((interfaceData P ili).ifTrueVSize + (interfaceData P ili).ih1TrueVSize),
      (P.sd (ifSd1 P ili orientation)).tdofsBdry.length + sdOsBefore P (ifSd1 P ili orientation) ili
        + ((interfaceData P ili).ifTrueVSize + (interfaceData P ili).ih1TrueVSize)
        + (sdOsFrom P (ifSd1 P ili orientation) ili
            - ((interfaceData P ili).ifTrueVSize + (interfaceData P ili).ih1TrueVSize))]
    [⟨0, 0, 1, identityOperatorMult, identityOperatorMult⟩,
     ⟨1, 2, 1, identityOperatorMult, identityOperatorMult⟩]

/-- `CreateInterfaceOperator(ili, orientation)`: the triple product of the
left padding injection, `CijS = leftInjection * Cij * rightInjection`, and
the right padding injection. -/
def createInterfaceOperatorMult (P : DDParams) (ili orientation : ℕ) : Vec → Vec :=
  tripleProductOperatorMult (blockInjectionLeftMult P ili orientation)
    (tripleProductOperatorMult (leftInjectionMult P ili orientation)
      (createCijMult P ili) (rightInjectionMult P ili orientation))
    (blockInjectionRightMult P ili orientation)

/-! ### The global operators (constructor lines 583-660) -/

/-- The blocks of `globalInterfaceOp`: for every local interface between
`sd0 < sd1`, block `(sd0, sd1)` is `CreateInterfaceOperator(ili, 0)` and
block `(sd1, sd0)` is `CreateInterfaceOperator(ili, 1)`; all other blocks
are never set. -/
def globalInterfaceOpBlocks (P : DDParams) : List BlockEntry :=
  (List.range P.interfaces.length).flatMap
    (fun ili =>
      [⟨(interfaceData P ili).sd0, (interfaceData P ili).sd1, 1,
          createInterfaceOperatorMult P ili 0, noAction⟩,
       ⟨(interfaceData P ili).sd1, (interfaceData P ili).sd0, 1,
          createInterfaceOperatorMult P ili 1, noAction⟩])

/-- `globalInterfaceOp` as a block operator over `block_trueOffsets`. -/
def globalInterfaceOpMult (P : DDParams) : Vec → Vec :=
  blockOperatorMult (block_trueOffsets P) (block_trueOffsets P) (globalInterfaceOpBlocks P)

/-- The interface pair sizes of subdomain `m` summed (`ifsize` in the
constructor). -/
def sdIfSize (P : DDParams) (m : ℕ) : ℕ :=
  ((subdomainLocalInterfaces P m).map (ifPairSize P)).sum

/-- `rowTrueOffsetsSD[m]` after `PartialSum`. -/
def rowTrueOffsetsSD (P : DDParams) (m : ℕ) : List ℕ :=
  [0, (P.sd m).fespaceTrueVSize, (P.sd m).fespaceTrueVSize + sdIfSize P m]

/-- `colTrueOffsetsSD[m]` after `PartialSum`. -/
def colTrueOffsetsSD (P : DDParams) (m : ℕ) : List ℕ :=
  [0, (P.sd m).tdofsBdry.length, (P.sd m).tdofsBdry.length + sdIfSize P m]

/-- The blocks of the injection `inj = R_m^T` from `(u^s, f, rho)` to
`(u, f, rho)`: `(0,0)` is `tdofsBdryInjection[m]`, `(1,1)` the identity
on the interface blocks. -/
def sdInjBlocks (P : DDParams) (m : ℕ) : List BlockEntry :=
  [⟨0, 0, 1, tdofsBdryInjectionMult P m, tdofsBdryInjectionMultT P m⟩,
   ⟨1, 1, 1, identityOperatorMult, identityOperatorMult⟩]

/-- The diagonal block of `globalSubdomainOp`:
`TripleProductOperator(TransposeOperator(inj), invAsd[m], inj)`. -/
def sdBlockDiagonalOp (P : DDParams) (m : ℕ) : Vec → Vec :=
  tripleProductOperatorMult
    (blockOperatorMultTranspose (rowTrueOffsetsSD P m) (colTrueOffsetsSD P m) (sdInjBlocks P m))
    (P.sd m).invAsdMult
    (blockOperatorMult (rowTrueOffsetsSD P m) (colTrueOffsetsSD P m) (sdInjBlocks P m))

/-- The blocks of `globalSubdomainOp`: one diagonal block per owned
subdomain (`Asd[m] != NULL`), nothing else. -/
def globalSubdomainOpBlocks (P : DDParams) : List BlockEntry :=
  (List.range P.numSubdomains).filterMap
    (fun m =>
      if (P.sd m).owned then some ⟨m, m, 1, sdBlockDiagonalOp P m, noAction⟩ else none)

/-- `globalSubdomainOp` as a block operator over `block_trueOffsets`. -/
def globalSubdomainOpMult (P : DDParams) : Vec → Vec :=
  blockOperatorMult (block_trueOffsets P) (block_trueOffsets P) (globalSubdomainOpBlocks P)

/-- `globalOp = SumOperator(ProductOperator(globalSubdomainOp,
globalInterfaceOp), IdentityOperator(size), 1.0, 1.0)` (line 659). -/
def globalOpMult (P : DDParams) : Vec → Vec :=
  sumOperatorMult
    (productOperatorMult (globalSubdomainOpMult P) (globalInterfaceOpMult P))
    identityOperatorMult 1 1

/-- `DDMInterfaceOperator::Mult` just forwards to `globalOp->Mult`. -/
def DDMInterfaceOperatorMult (P : DDParams) : Vec → Vec := globalOpMult P

/-! ### Zero preservation of the assembled operators -/

/-- Zero preservation of the five abstract interface matrices of one
interface (they are assembled bilinear-form matrices, hence linear). -/
def IfaceZero (d : InterfaceData) : Prop :=
  d.ifNDmassMult vzero = vzero ∧ d.ifNDcurlcurlMult vzero = vzero
    ∧ d.ifNDH1gradMult vzero = vzero ∧ d.ifNDH1gradMultT vzero = vzero
    ∧ d.ifH1massMult vzero = vzero

/-- The placeholder interface data is zero preserving. -/
lemma ifaceZero_default : IfaceZero (default : InterfaceData) :=
  ⟨rfl, rfl, rfl, rfl, rfl⟩

/-- A subvector of the zero vector is zero. -/
lemma subvec_vzero (off : ℕ) : subvec off vzero = vzero := rfl

/-- A block operator with zero-preserving blocks maps zero to zero. -/
lemma blockOperatorMult_vzero (ro co : List ℕ) (blocks : List BlockEntry)
    (h : ∀ b ∈ blocks, b.op vzero = vzero) (i : ℕ) :
    blockOperatorMult ro co blocks vzero i = 0 := by
  simp only [blockOperatorMult]
  apply List.sum_eq_zero
  intro q hq
  obtain ⟨b, hb, rfl⟩ := List.mem_map.mp hq
  rw [subvec_vzero, h b (List.mem_of_mem_filter hb)]
  exact mul_zero _

/-- Function form of `blockOperatorMult_vzero`. -/
lemma blockOperatorMult_vzero_fun (ro co : List ℕ) (blocks : List BlockEntry)
    (h : ∀ b ∈ blocks, b.op vzero = vzero) :
    blockOperatorMult ro co blocks vzero = vzero :=
  funext fun i => blockOperatorMult_vzero ro co blocks h i

/-- A transposed block operator with zero-preserving transposed blocks
maps zero to zero. -/
lemma blockOperatorMultTranspose_vzero (ro co : List ℕ) (blocks : List BlockEntry)
    (h : ∀ b ∈ blocks, b.opT vzero = vzero) :
    blockOperatorMultTranspose ro co blocks vzero = vzero := by
  funext i
  simp only [blockOperatorMultTranspose]
  apply List.sum_eq_zero
  intro q hq
  obtain ⟨b, hb, rfl⟩ := List.mem_map.mp hq
  rw [subvec_vzero, h b (List.mem_of_mem_filter hb)]
  exact mul_zero _

/-- `SumOperator` preserves zero. -/
lemma sumOperatorMult_vzero {A B : Vec → Vec} (cA cB : ℚ)
    (hA : A vzero = vzero) (hB : B vzero = vzero) :
    sumOperatorMult A B cA cB vzero = vzero := by
  funext i
  simp only [sumOperatorMult, hA, hB]
  show cA * vzero i + cB * vzero i = vzero i
  simp [vzero]

/-- `ProductOperator` preserves zero. -/
lemma productOperatorMult_vzero {A B : Vec → Vec}
    (hA : A vzero = vzero) (hB : B vzero = vzero) :
    productOperatorMult A B vzero = vzero := by
  unfold productOperatorMult
  rw [hB, hA]

/-- `TripleProductOperator` preserves zero. -/
lemma tripleProductOperatorMult_vzero {A B C : Vec → Vec}
    (hA : A vzero = vzero) (hB : B vzero = vzero) (hC : C vzero = vzero) :
    tripleProductOperatorMult A B C vzero = vzero := by
  unfold tripleProductOperatorMult
  rw [hC, hB, hA]

/-- The scatter loop maps the zero compact vector to the zero ambient
vector. -/
lemma setInjectionMultAux_vzero (ids : List ℕ) (i : ℕ) :
    setInjectionMultAux ids vzero i vzero = vzero := by
  induction ids generalizing i with
  | nil => rfl
  | cons a rest ih =>
    simp only [setInjectionMultAux]
    rw [show Function.update vzero a (vzero i) = vzero from Function.update_eq_self a vzero]
    exact ih (i + 1)

/-- `SetInjectionOperator::Mult` preserves zero. -/
lemma setInjectionMult_vzero (ids : List ℕ) : setInjectionMult ids vzero = vzero :=
  setInjectionMultAux_vzero ids 0

/-- `SetInjectionOperator::MultTranspose` preserves zero. -/
lemma setInjectionMultTranspose_vzero (ids : List ℕ) :
    setInjectionMultTranspose ids vzero = vzero := rfl

/-- `tdofsBdryInjection[m]` preserves zero. -/
lemma tdofsBdryInjectionMult_vzero (P : DDParams) (m : ℕ) :
    tdofsBdryInjectionMult P m vzero = vzero :=
  setInjectionMult_vzero _

/-- `tdofsBdryInjectionTranspose[m]` preserves zero. -/
lemma tdofsBdryInjectionMultT_vzero (P : DDParams) (m : ℕ) :
    tdofsBdryInjectionMultT P m vzero = vzero := rfl

/-- `CreateCij` preserves zero when its interface matrices do. -/
lemma createCijMult_vzero (P : DDParams) (k : ℕ) (h : IfaceZero (interfaceData P k)) :
    createCijMult P k vzero = vzero := by
  obtain ⟨h1, h2, h3, h4, h5⟩ := h
  apply blockOperatorMult_vzero_fun
  intro b hb
  simp only [createCijBlocks, List.mem_cons, List.not_mem_nil, or_false] at hb
  rcases hb with rfl | rfl | rfl | rfl | rfl | rfl
  · exact sumOperatorMult_vzero _ _ h1 h2
  · exact h1
  · exact h3
  · exact sumOperatorMult_vzero _ _ h1 h2
  · exact h1
  · exact h3

/-- The right injection of `CreateInterfaceOperator` preserves zero. -/
lemma rightInjectionMult_vzero (P : DDParams) (ili orientation : ℕ)
    (hInj : ∀ m i, P.ifsInjMult m i vzero = vzero ∧ P.ifsInjMultT m i vzero = vzero) :
    rightInjectionMult P ili orientation vzero = vzero := by
  unfold rightInjectionMult
  apply blockOperatorMult_vzero_fun
  intro b hb
  simp only [List.mem_cons, List.not_mem_nil, or_false] at hb
  rcases hb with rfl | rfl
  · exact productOperatorMult_vzero (hInj _ _).2 (tdofsBdryInjectionMult_vzero _ _)
  · rfl

/-- The left injection of `CreateInterfaceOperator` preserves zero. -/
lemma leftInjectionMult_vzero (P : DDParams) (ili orientation : ℕ)
    (hInj : ∀ m i, P.ifsInjMult m i vzero = vzero ∧ P.ifsInjMultT m i vzero = vzero) :
    leftInjectionMult P ili orientation vzero = vzero := by
  unfold leftInjectionMult
  apply blockOperatorMult_vzero_fun
  intro b hb
  simp only [List.mem_cons, List.not_mem_nil, or_false] at hb
  rcases hb with rfl | rfl
  · exact productOperatorMult_vzero (tdofsBdryInjectionMultT_vzero _ _) (hInj _ _).1
  · rfl

/-- The left padding injection preserves zero. -/
lemma blockInjectionLeftMult_vzero (P : DDParams) (ili orientation : ℕ) :
    blockInjectionLeftMult P ili orientation vzero = vzero := by
  unfold blockInjectionLeftMult
  apply blockOperatorMult_vzero_fun
  intro b hb
  simp only [List.mem_cons, List.not_mem_nil, or_false] at hb
  rcases hb with rfl | rfl <;> rfl

/-- The right padding injection preserves zero. -/
lemma blockInjectionRightMult_vzero (P : DDParams) (ili orientation : ℕ) :
    blockInjectionRightMult P ili orientation vzero = vzero := by
  unfold blockInjectionRightMult
  apply blockOperatorMult_vzero_fun
  intro b hb
  simp only [List.mem_cons, List.not_mem_nil, or_false] at hb
  rcases hb with rfl | rfl <;> rfl

/-- `CreateInterfaceOperator` preserves zero. -/
lemma createInterfaceOperatorMult_vzero (P : DDParams) (ili orientation : ℕ)
    (hIf : ∀ k, IfaceZero (interfaceData P k))
    (hInj : ∀ m i, P.ifsInjMult m i vzero = vzero ∧ P.ifsInjMultT m i vzero = vzero) :
    createInterfaceOperatorMult P ili orientation vzero = vzero := by
  unfold createInterfaceOperatorMult
  exact tripleProductOperatorMult_vzero
    (blockInjectionLeftMult_vzero P ili orientation)
    (tripleProductOperatorMult_vzero
      (leftInjectionMult_vzero P ili orientation hInj)
      (createCijMult_vzero P ili (hIf ili))
      (rightInjectionMult_vzero P ili orientation hInj))
    (blockInjectionRightMult_vzero P ili orientation)

/-- `globalInterfaceOp` preserves zero. -/
lemma globalInterfaceOpMult_vzero (P : DDParams)
    (hIf : ∀ k, IfaceZero (interfaceData P k))
    (hInj : ∀ m i, P.ifsInjMult m i vzero = vzero ∧ P.ifsInjMultT m i vzero = vzero) :
    globalInterfaceOpMult P vzero = vzero := by
  apply blockOperatorMult_vzero_fun
  intro b hb
  unfold globalInterfaceOpBlocks at hb
  obtain ⟨ili, _, hmem⟩ := List.mem_flatMap.mp hb
  simp only [List.mem_cons, List.not_mem_nil, or_false] at hmem
  rcases hmem with rfl | rfl
  · exact createInterfaceOperatorMult_vzero P ili 0 hIf hInj
  · exact createInterfaceOperatorMult_vzero P ili 1 hIf hInj

/-- The diagonal block `TransposeOperator(inj) * invAsd[m] * inj`
preserves zero when the GMRES inverse does. -/
lemma sdBlockDiagonalOp_vzero (P : DDParams) (m : ℕ)
    (hInv : (P.sd m).invAsdMult vzero = vzero) :
    sdBlockDiagonalOp P m vzero = vzero := by
  unfold sdBlockDiagonalOp
  refine tripleProductOperatorMult_vzero ?_ hInv ?_
  · apply blockOperatorMultTranspose_vzero
    intro b hb
    simp only [sdInjBlocks, List.mem_cons, List.not_mem_nil, or_false] at hb
    rcases hb with rfl | rfl
    · rfl
    · rfl
  · apply blockOperatorMult_vzero_fun
    intro b hb
    simp only [sdInjBlocks, List.mem_cons, List.not_mem_nil, or_false] at hb
    rcases hb with rfl | rfl
    · exact tdofsBdryInjectionMult_vzero P m
    · rfl

/-- `globalSubdomainOp` preserves zero. -/
lemma globalSubdomainOpMult_vzero (P : DDParams)
    (hInv : ∀ m, (P.sd m).invAsdMult vzero = vzero) :
    globalSubdomainOpMult P vzero = vzero := by
  apply blockOperatorMult_vzero_fun
  intro b hb
  unfold globalSubdomainOpBlocks at hb
  obtain ⟨m, _, hsome⟩ := List.mem_filterMap.mp hb
  by_cases h : (P.sd m).owned = true
  · rw [if_pos h] at hsome
    obtain rfl := Option.some.inj hsome
    exact sdBlockDiagonalOp_vzero P m (hInv m)
  · rw [if_neg h] at hsome
    cases hsome

/-- C1: the assembled global operator is the sum of `globalSubdomainOp *
globalInterfaceOp` and the identity, so `Mult(x) = x + S(C(x))`; it maps
zero to zero (the abstract subdomain inverses, interface matrices and
injections being zero preserving); with no interfaces `Mult` is the
identity; the coupling blocks of `C` sit only at the `(sd0, sd1)` and
`(sd1, sd0)` positions of subdomain pairs sharing an interface; and `S` is
block diagonal with block `m` equal to
`TransposeOperator(R_m^T) * invAsd[m] * R_m^T` for owned subdomains. -/
theorem C1_global_operator_composition (P : DDParams)
    (hIf : ∀ k, IfaceZero (interfaceData P k))
    (hInv : ∀ m, (P.sd m).invAsdMult vzero = vzero)
    (hInj : ∀ m i, P.ifsInjMult m i vzero = vzero ∧ P.ifsInjMultT m i vzero = vzero) :
    (∀ x, DDMInterfaceOperatorMult P x
      = fun i => globalSubdomainOpMult P (globalInterfaceOpMult P x) i + x i)
    ∧ DDMInterfaceOperatorMult P vzero = vzero
    ∧ (P.interfaces = [] → ∀ x, DDMInterfaceOperatorMult P x = x)
    ∧ (∀ b ∈ globalInterfaceOpBlocks P, ∃ k, k < P.interfaces.length
        ∧ ((b.row = (interfaceData P k).sd0 ∧ b.col = (interfaceData P k).sd1)
            ∨ (b.row = (interfaceData P k).sd1 ∧ b.col = (interfaceData P k).sd0)))
    ∧ (∀ b ∈ globalSubdomainOpBlocks P,
        b.row = b.col ∧ (P.sd b.row).owned = true ∧ b.op = sdBlockDiagonalOp P b.row) := by
  have hform : ∀ x, DDMInterfaceOperatorMult P x
      = fun i => globalSubdomainOpMult P (globalInterfaceOpMult P x) i + x i := by
    intro x
    funext i
    show 1 * globalSubdomainOpMult P (globalInterfaceOpMult P x) i
        + 1 * identityOperatorMult x i = _
    rw [one_mul, one_mul]
    rfl
  refine ⟨hform, ?_, ?_, ?_, ?_⟩
  · rw [hform vzero, globalInterfaceOpMult_vzero P hIf hInj,
      globalSubdomainOpMult_vzero P hInv]
    funext i
    show vzero i + vzero i = vzero i
    simp [vzero]
  · intro hnil x
    rw [hform x]
    have h1 : globalInterfaceOpMult P x = vzero := by
      unfold globalInterfaceOpMult globalInterfaceOpBlocks
      rw [hnil]
      funext i
      rfl
    rw [h1, globalSubdomainOpMult_vzero P hInv]
    funext i
    show vzero i + x i = x i
    simp [vzero]
  · intro b hb
    unfold globalInterfaceOpBlocks at hb
    obtain ⟨ili, hili, hmem⟩ := List.mem_flatMap.mp hb
    rw [List.mem_range] at hili
    simp only [List.mem_cons, List.not_mem_nil, or_false] at hmem
    rcases hmem with rfl | rfl
    · exact ⟨ili, hili, Or.inl ⟨rfl, rfl⟩⟩
    · exact ⟨ili, hili, Or.inr ⟨rfl, rfl⟩⟩
  · intro b hb
    unfold globalSubdomainOpBlocks at hb
    obtain ⟨m, _, hsome⟩ := List.mem_filterMap.mp hb
    by_cases h : (P.sd m).owned = true
    · rw [if_pos h] at hsome
      obtain rfl := Option.some.inj hsome
      exact ⟨rfl, h, rfl⟩
    · rw [if_neg h] at hsome
      cases hsome

/-- A subdomain not owned on this process, with trivial external data. -/
def trivialSubdomain : SubdomainData := ⟨false, 0, [], id, id⟩

/-- A one-subdomain, zero-interface instance. -/
def P1 : DDParams := ⟨1, fun _ => trivialSubdomain, [], 1, 1, 1, fun _ _ => id, fun _ _ => id⟩

/-- C1 witness: the composite operator of the trivial instance maps the
zero vector to the zero vector. -/
theorem C1_global_operator_composition_witness :
    DDMInterfaceOperatorMult P1 vzero = vzero :=
  (C1_global_operator_composition P1 (fun _ => ifaceZero_default)
    (fun _ => rfl) (fun _ _ => ⟨rfl, rfl⟩)).2.1

/-- The block offsets are monotonically non-decreasing. -/
lemma chain'_le_offsets (P : DDParams) :
    List.Chain' (· ≤ ·) (block_trueOffsets P) := by
  unfold block_trueOffsets
  rw [List.chain'_map]
  refine (List.chain'_range_succ _ _).mpr ?_
  intro m _
  by_cases h : m < ((List.range P.numSubdomains).map (sdBlockSize P)).length
  · rw [List.sum_take_succ _ m h]
    exact Nat.le_add_right _ _
  · push_neg at h
    rw [List.take_of_length_le h, List.take_of_length_le (h.trans (Nat.le_succ m))]

/-- The last block offset equals the accumulated size. -/
lemma offsets_getLastD (P : DDParams) :
    (block_trueOffsets P).getLastD 0 = ddSize P := by
  unfold block_trueOffsets ddSize
  rw [List.range_succ, List.map_append]
  simp only [List.map_cons, List.map_nil]
  rw [List.getLastD_concat]
  rw [List.take_of_length_le (by simp)]

/-- The accumulated size splits into the boundary true-DOF counts and the
per-interface true-DOF pair counts. -/
lemma ddSize_formula (P : DDParams) :
    ddSize P
      = ((List.range P.numSubdomains).map
          (fun m => if (P.sd m).owned then (P.sd m).tdofsBdry.length else 0)).sum
        + ((List.range P.numSubdomains).map
            (fun m => ((subdomainLocalInterfaces P m).map (ifPairSize P)).sum)).sum := by
  unfold ddSize
  rw [show (List.range P.numSubdomains).map (sdBlockSize P)
      = (List.range P.numSubdomains).map
          (fun m => ((subdomainLocalInterfaces P m).map (ifPairSize P)).sum
            + (if (P.sd m).owned then (P.sd m).tdofsBdry.length else 0)) from rfl]
  rw [List.sum_map_add]
  exact Nat.add_comm _ _

/-- C8: the global block offset vector is monotonically non-decreasing,
its final entry equals the operator's height and width (the accumulated
size), that size is the sum over subdomains of the boundary true-DOF
count (zero for unowned subdomains, whose set is never populated) plus
the sum over incident interfaces of the two interface true-DOF counts,
and the constructor's `MFEM_VERIFY(block_trueOffsets.Last() == size)`
check always passes, so construction never aborts there. -/
theorem C8_block_offsets (P : DDParams) :
    List.Chain' (· ≤ ·) (block_trueOffsets P)
    ∧ (block_trueOffsets P).getLastD 0 = ddSize P
    ∧ ddConstructorCheck P = some (ddSize P, block_trueOffsets P)
    ∧ ddSize P
        = ((List.range P.numSubdomains).map
            (fun m => if (P.sd m).owned then (P.sd m).tdofsBdry.length else 0)).sum
          + ((List.range P.numSubdomains).map
              (fun m => ((subdomainLocalInterfaces P m).map (ifPairSize P)).sum)).sum :=
  ⟨chain'_le_offsets P, offsets_getLastD P,
    by unfold ddConstructorCheck; rw [if_pos (offsets_getLastD P)],
    ddSize_formula P⟩

/-! ### `CreateSubdomainOperator` (lines 1176-1261) -/

/-- The block sizes of `trueOffsetsSD[subdomain]` before `PartialSum`:
the subdomain ND true size, then `(ifT, ih1T)` for every incident
interface. -/
def trueOffsetsSDSizes (P : DDParams) (m : ℕ) : List ℕ :=
  (P.sd m).fespaceTrueVSize ::
    (subdomainLocalInterfaces P m).flatMap
      (fun k => [(interfaceData P k).ifTrueVSize, (interfaceData P k).ih1TrueVSize])

/-- `trueOffsetsSD[subdomain]` after `PartialSum`: the prefix sums. -/
def trueOffsetsSD (P : DDParams) (m : ℕ) : List ℕ :=
  (List.range ((trueOffsetsSDSizes P m).length + 1)).map
    (fun t => ((trueOffsetsSDSizes P m).take t).sum)

/-- The blocks set by `CreateSubdomainOperator`: `(0,0)` the subdomain
stiffness matrix; per incident interface `i` (blocks `2i+1` for `f`,
`2i+2` for `rho`): `(0, 2i+2)` injection composed with the mixed gradient
scaled `-gamma`; `(2i+1, 2i+2)` mixed gradient scaled `gamma/alpha`;
`(2i+1, 0)` (mass + (beta/alpha) curlcurl) composed with the injection
transpose; `(2i+2, 2i+1)` the mixed gradient transpose; `(2i+1, 2i+1)`
mass scaled `1/alpha`; `(2i+2, 2i+2)` the H1 mass.  The `(0, 2i+1)`
block (`A_m^{SF}`) is commented out in the source, hence never set. -/
def createSubdomainOperatorBlocks (P : DDParams) (m : ℕ) : List BlockEntry :=
  ⟨0, 0, 1, (P.sd m).sdNDMult, noAction⟩ ::
    (List.range (subdomainLocalInterfaces P m).length).flatMap
      (fun i =>
        [⟨0, 2 * i + 2, -P.gamma,
            productOperatorMult (P.ifsInjMult m i)
              (interfaceData P ((subdomainLocalInterfaces P m).getD i 0)).ifNDH1gradMult,
            noAction⟩,
         ⟨2 * i + 1, 2 * i + 2, P.gamma / P.alpha,
            (interfaceData P ((subdomainLocalInterfaces P m).getD i 0)).ifNDH1gradMult,
            noAction⟩,
         ⟨2 * i + 1, 0, 1,
            productOperatorMult
              (sumOperatorMult
                (interfaceData P ((subdomainLocalInterfaces P m).getD i 0)).ifNDmassMult
                (interfaceData P ((subdomainLocalInterfaces P m).getD i 0)).ifNDcurlcurlMult
                1 (P.beta / P.alpha))
              (P.ifsInjMultT m i),
            noAction⟩,
         ⟨2 * i + 2, 2 * i + 1, 1,
            (interfaceData P ((subdomainLocalInterfaces P m).getD i 0)).ifNDH1gradMultT,
            noAction⟩,
         ⟨2 * i + 1, 2 * i + 1, 1 / P.alpha,
            (interfaceData P ((subdomainLocalInterfaces P m).getD i 0)).ifNDmassMult,
            noAction⟩,
         ⟨2 * i + 2, 2 * i + 2, 1,
            (interfaceData P ((subdomainLocalInterfaces P m).getD i 0)).ifH1massMult,
            noAction⟩])

/-- `CreateSubdomainOperator(m)` as a block operator over
`trueOffsetsSD[m]`. -/
def createSubdomainOperatorMult (P : DDParams) (m : ℕ) : Vec → Vec :=
  blockOperatorMult (trueOffsetsSD P m) (trueOffsetsSD P m)
    (createSubdomainOperatorBlocks P m)

/-- Filtering distributes over `flatMap`. -/
lemma flatMap_filter_comm {α β : Type} (l : List α) (g : α → List β) (p : β → Bool) :
    (l.flatMap g).filter p = l.flatMap (fun a => (g a).filter p) := by
  induction l with
  | nil => rfl
  | cons a rest ih => simp only [List.flatMap_cons, List.filter_append, ih]

/-- A `flatMap` of empty lists is empty. -/
lemma flatMap_eq_nil_of {α β : Type} (l : List α) (g : α → List β)
    (h : ∀ a ∈ l, g a = []) : l.flatMap g = [] := by
  induction l with
  | nil => rfl
  | cons a rest ih =>
    rw [List.flatMap_cons, h a (List.mem_cons_self _ _), List.nil_append]
    exact ih (fun b hb => h b (List.mem_cons_of_mem _ hb))

/-- A `flatMap` over a range that yields a singleton at one index and
nothing elsewhere is that singleton. -/
lemma flatMap_range_single {β : Type} (n i : ℕ) (e : β) (g : ℕ → List β)
    (hi : i < n) (hg : ∀ j, g j = if j = i then [e] else []) :
    (List.range n).flatMap g = [e] := by
  induction n with
  | zero => omega
  | succ n2 ih =>
    rw [List.range_succ, List.flatMap_append, List.flatMap_cons, List.flatMap_nil,
      List.append_nil]
    by_cases h : i < n2
    · rw [ih h, hg n2, if_neg (by omega), List.append_nil]
    · have hin : i = n2 := by omega
      subst hin
      rw [flatMap_eq_nil_of _ _ (fun j hj => by
          rw [hg j, if_neg]
          rw [List.mem_range] at hj
          omega),
        hg i, if_pos rfl, List.nil_append]

/-- C3 (amended): in the per-subdomain block operator, no block is ever
set at `(0, f-block)` — that coupling is zero (the source comments the
`A_m^{SF}` block out) — while the `-gamma`-scaled product of the surface
injection with the interface mixed gradient is set at `(0, rho-block)`,
i.e. the column of the H1 scalar-potential unknown. -/
theorem C3_coupling_block_amended (P : DDParams) (m i : ℕ)
    (hi : i < (subdomainLocalInterfaces P m).length) :
    ((createSubdomainOperatorBlocks P m).filter
        (fun b => b.row == 0 && b.col == 2 * i + 1)) = []
    ∧ ((createSubdomainOperatorBlocks P m).filter
        (fun b => b.row == 0 && b.col == 2 * i + 2))
      = [⟨0, 2 * i + 2, -P.gamma,
          productOperatorMult (P.ifsInjMult m i)
            (interfaceData P ((subdomainLocalInterfaces P m).getD i 0)).ifNDH1gradMult,
          noAction⟩] := by
  constructor
  · apply List.filter_eq_nil_iff.mpr
    intro b hb
    unfold createSubdomainOperatorBlocks at hb
    simp only [List.mem_cons] at hb
    rcases hb with rfl | hb
    · simp only [Bool.and_eq_true, beq_iff_eq]
      rintro ⟨-, h2⟩
      omega
    · obtain ⟨j, _, hmem⟩ := List.mem_flatMap.mp hb
      simp only [List.mem_cons, List.not_mem_nil, or_false] at hmem
      rcases hmem with rfl | rfl | rfl | rfl | rfl | rfl <;>
        · simp only [Bool.and_eq_true, beq_iff_eq]
          rintro ⟨h1, h2⟩
          omega
  · unfold createSubdomainOperatorBlocks
    rw [List.filter_cons]
    rw [if_neg (by
      simp only [Bool.and_eq_true, beq_iff_eq]
      rintro ⟨-, h2⟩
      omega)]
    rw [flatMap_filter_comm]
    apply flatMap_range_single _ i _ _ hi
    intro j
    by_cases hj : j = i
    · subst hj
      have hr1 : ¬(2 * j + 1 = 0) := by omega
      have hr2 : ¬(2 * j + 2 = 0) := by omega
      simp [hr1, hr2]
    · have hc1 : ¬(2 * j + 2 = 2 * i + 1) := by omega
      have hc2 : ¬(2 * j + 2 = 2 * i + 2) := by omega
      have hr1 : ¬(2 * j + 1 = 0) := by omega
      have hr2 : ¬(2 * j + 2 = 0) := by omega
      rw [if_neg hj]
      simp [hc1, hc2, hr1, hr2]

/-- A concrete interface between subdomains 0 and 1: one true DOF in each
auxiliary space, all interface matrices the identity action. -/
def cIface : InterfaceData := ⟨0, 1, 1, 1, id, id, id, id, id⟩

/-- A concrete owned subdomain: one volumetric true DOF, boundary set
`{0}`, identity stiffness and inverse. -/
def cSd : SubdomainData := ⟨true, 1, [0], id, id⟩

/-- A concrete two-subdomain instance with one interface and identity
injections (`alpha = beta = gamma = 1` as hard-coded in the source). -/
def Pc : DDParams := ⟨2, fun _ => cSd, [cIface], 1, 1, 1, fun _ _ => id, fun _ _ => id⟩

/-- An input supported only on the `f`-block of subdomain 0 (flat index
1, since `trueOffsetsSD Pc 0 = [0, 1, 2, 3]`). -/
def xc : Vec := fun j => if j = 1 then 1 else 0

/-- C3 (counterexample): with the input supported on the `f`-block, the
assembled subdomain operator's row-0 (volumetric) output is zero — there
is no `(0, f)` coupling block — while the operator the claim asserts for
that coupling, `-gamma` times the injection composed with the mixed
gradient applied to the `f`-block, yields `-1 ≠ 0`. -/
theorem C3_coupling_block_counterexample :
    createSubdomainOperatorMult Pc 0 xc 0 = 0
    ∧ scaledOperatorMult
        (productOperatorMult (Pc.ifsInjMult 0 0) (interfaceData Pc 0).ifNDH1gradMult)
        (-Pc.gamma) (subvec ((trueOffsetsSD Pc 0).getD 1 0) xc) 0 = -1 := by
  constructor
  · norm_num [createSubdomainOperatorMult, createSubdomainOperatorBlocks,
      blockOperatorMult, trueOffsetsSD, trueOffsetsSDSizes, subdomainLocalInterfaces,
      interfaceData, ifPairSize, Pc, cSd, cIface, rowOf, subvec, xc,
      productOperatorMult, sumOperatorMult, identityOperatorMult,
      List.range_succ, List.flatMap_cons, List.flatMap_nil, List.filter_cons,
      List.filter_nil, List.sum_cons, List.sum_nil]
  · norm_num [scaledOperatorMult, productOperatorMult, Pc, cSd, cIface, interfaceData,
      subvec, trueOffsetsSD, trueOffsetsSDSizes, subdomainLocalInterfaces, xc,
      List.range_succ, List.flatMap_cons, List.flatMap_nil, List.filter_cons,
      List.filter_nil]

/-- C3 witness: the amended block placement at the concrete instance —
no `(0, 1)` block, and the `(0, 2)` block carries `-gamma` times the
injection composed with the mixed gradient. -/
theorem C3_coupling_block_amended_witness :
    ((createSubdomainOperatorBlocks Pc 0).filter
        (fun b => b.row == 0 && b.col == 2 * 0 + 1)) = []
    ∧ ((createSubdomainOperatorBlocks Pc 0).filter
        (fun b => b.row == 0 && b.col == 2 * 0 + 2))
      = [⟨0, 2 * 0 + 2, -Pc.gamma,
          productOperatorMult (Pc.ifsInjMult 0 0)
            (interfaceData Pc ((subdomainLocalInterfaces Pc 0).getD 0 0)).ifNDH1gradMult,
          noAction⟩] :=
  C3_coupling_block_amended Pc 0 0 (by
    simp [subdomainLocalInterfaces, Pc, cIface, interfaceData, List.range_succ])

/-- Supporting fact for the injection scatter: over a fully mapped,
in-range dofmap the loop succeeds and touches only the mapped targets, so
every ambient position that is not a target keeps its initial value. -/
lemma injectionMultAux_untouched (height : ℕ) (id : List ℤ) (gf : ℕ → ℚ)
    (i : ℕ) (y : ℕ → ℚ) (hid : ∀ j ∈ id, 0 ≤ j ∧ j < (height : ℤ)) :
    ∃ y2, injectionMultAux height id gf i y = some y2
      ∧ ∀ a : ℕ, (a : ℤ) ∉ id → y2 a = y a := by
  revert hid
  induction id generalizing i y with
  | nil => exact fun _ => ⟨y, rfl, fun a _ => rfl⟩
  | cons j rest ih =>
    intro hid
    obtain ⟨hj0, hjh⟩ := hid j (List.mem_cons_self _ _)
    obtain ⟨y2, hy2, hout⟩ := ih (i + 1) (Function.update y j.toNat (gf i))
      (fun q hq => hid q (List.mem_cons_of_mem _ hq))
    refine ⟨y2, ?_, ?_⟩
    · simp only [injectionMultAux, vecWrite, if_pos (And.intro hj0 hjh)]
      exact hy2
    · intro a ha
      have har : (a : ℤ) ∉ rest := fun h => ha (List.mem_cons_of_mem _ h)
      have haj : a ≠ j.toNat := by
        intro h
        apply ha
        have : (a : ℤ) = j := by omega
        rw [this]
        exact List.mem_cons_self _ _
      rw [hout a har, Function.update_noteq haj]

/-- `InjectionOperator::Mult` over a fully mapped in-range dofmap: the
scatter succeeds and zero-fills every ambient position that is not the
target of a table entry (the behaviour the spec asserts, which fails only
at sentinel entries, see the C2 record). -/
lemma injectionOperatorMult_zero_fill (height : ℕ) (id : List ℤ) (gf : ℕ → ℚ)
    (hid : ∀ j ∈ id, 0 ≤ j ∧ j < (height : ℤ)) :
    ∃ y, InjectionOperatorMult height id gf = some y
      ∧ ∀ a : ℕ, (a : ℤ) ∉ id → y a = 0 := by
  obtain ⟨y, hy, hout⟩ := injectionMultAux_untouched height id gf 0 (fun _ => 0) hid
  exact ⟨y, hy, fun a ha => hout a ha⟩
